import Mathlib

/-!
Shallow embedding of the github-issue-operator reconcile core:
the repo-URL parser, the GitHub client wrapper (issue find/create/update/close),
the status projection and teardown routines, and the reconcile loop, together
with theorems settling the specification claims about them.
-/

/-- A remote GitHub issue as seen through go-github: pointer-typed fields are
    `Option`, `pullRequestLinks` records whether `PullRequestLinks != nil`. -/
structure RemoteIssue where
  number : Option Int
  title : Option String
  body : Option String
  state : Option String
  pullRequestLinks : Bool
  deriving DecidableEq, Repr

/-- The go-github nil-safe getter `GetTitle` (empty string when nil). -/
def RemoteIssue.getTitle (i : RemoteIssue) : String := i.title.getD ""

/-- The go-github nil-safe getter `GetNumber` (zero when nil). -/
def RemoteIssue.getNumber (i : RemoteIssue) : Int := i.number.getD 0

/-- An edit request sent to the remote tracker (go-github `IssueRequest`):
    only the provided fields are changed. -/
structure IssueRequest where
  rtitle : Option String
  rbody : Option String
  rstate : Option String
  deriving DecidableEq, Repr

/-- Modelled from the spec: the remote ticketing API's edit applies exactly the
    provided fields of the request to an issue, leaving the rest unchanged. -/
def applyRequest (req : IssueRequest) (i : RemoteIssue) : RemoteIssue :=
  { i with
    title := match req.rtitle with | some t => some t | none => i.title
    body := match req.rbody with | some b => some b | none => i.body
    state := match req.rstate with | some s => some s | none => i.state }

/-- Modelled from the spec: the remote ticketing API's edit updates every issue
    carrying the targeted number (issue identity is its number within the repo). -/
def editIssues (issues : List RemoteIssue) (number : Int) (req : IssueRequest) :
    List RemoteIssue :=
  issues.map (fun i => if i.getNumber == number then applyRequest req i else i)

/-- Modelled from the spec: the remote ticketing API's create returns a fresh
    open issue with the requested title and body and a remote-assigned number. -/
def createdIssue (title description : String) (fresh : Int) : RemoteIssue :=
  { number := some fresh, title := some title, body := some description,
    state := some "open", pullRequestLinks := false }

/-- The scan inside `GithubClient.CheckIssueExists` (issue_resource.go:35-39):
    first issue in list order whose title equals `title` OR whose number equals
    `issueNumber`. -/
def findIssue (issues : List RemoteIssue) (title : String) (issueNumber : Int) :
    Option RemoteIssue :=
  issues.find? (fun issue => issue.getTitle == title || issue.getNumber == issueNumber)

/-- `GithubClient.CheckIssueExists` (issue_resource.go:28-42): propagates a
    listing failure, otherwise scans the listed issues; no-match is `ok none`. -/
def CheckIssueExists (listResult : Except String (List RemoteIssue))
    (title : String) (issueNumber : Int) : Except String (Option RemoteIssue) :=
  match listResult with
  | .error e => .error ("failed to list issues: " ++ e)
  | .ok issues => .ok (findIssue issues title issueNumber)

/-- The literal host prefix stripped by `utils.ParseRepoUrl`. -/
def repoHost : String := "https://github.com/"

/-- Go's `strings.Split` around a single-character separator, char-list level:
    "" gives [""], adjacent separators give empty segments. -/
def splitOnChar (c : Char) : List Char → List (List Char)
  | [] => [[]]
  | x :: xs =>
    if x == c then [] :: splitOnChar c xs
    else
      match splitOnChar c xs with
      | [] => [[x]]
      | y :: ys => (x :: y) :: ys

/-- The `strings.TrimPrefix` step of `utils.ParseRepoUrl`. -/
def stripHost (repoUrl : String) : String :=
  String.mk
    (if repoHost.data.isPrefixOf repoUrl.data then
      repoUrl.data.drop repoHost.data.length
    else repoUrl.data)

/-- The segment list `utils.ParseRepoUrl` splits the trimmed URL into. -/
def repoParts (repoUrl : String) : List String :=
  (splitOnChar '/' (stripHost repoUrl).data).map String.mk

/-- `utils.ParseRepoUrl` (src/unnamed/part_002): trim the host prefix, split on
    "/", error when fewer than two parts, else return the first two parts. -/
def ParseRepoUrl (repoUrl : String) : Except String (String × String) :=
  let parts := repoParts repoUrl
  if parts.length < 2 then
    .error ("invalid repo url: " ++ stripHost repoUrl)
  else
    .ok (parts.getD 0 "", parts.getD 1 "")

/-- The spec's contract stated in its own words, for comparison with the source
    (`ParseRepoUrl`): return the first two NON-empty segments, failing when
    fewer than two non-empty segments remain. -/
def parseRepoRefSpecWords (repoUrl : String) : Except String (String × String) :=
  match (repoParts repoUrl).filter (fun s => s ≠ "") with
  | o :: r :: _ => .ok (o, r)
  | _ => .error "MalformedRepoRef"

/-- One status condition (metav1.Condition): type, truth value, reason,
    message, transition time. -/
structure Condition where
  ctype : String
  cstatus : Bool
  reason : String
  message : String
  lastTransitionTime : Nat
  deriving DecidableEq, Repr

/-- Fallback condition for safe list indexing in statements. -/
def noCondition : Condition :=
  { ctype := "", cstatus := false, reason := "", message := "", lastTransitionTime := 0 }

/-- `GithubIssueSpec` (api/v1): repo URL, title, description. -/
structure GithubIssueSpec where
  repo : String
  title : String
  description : String
  deriving DecidableEq, Repr

/-- `GithubIssueStatus` (api/v1): conditions, issue number, last-updated
    timestamp, token-required flag. -/
structure GithubIssueStatus where
  conditions : List Condition
  issueNumber : Int
  lastUpdated : Option Nat
  tokenRequired : Bool
  deriving DecidableEq, Repr

/-- A fetched `GithubIssue` record: identity, deletion timestamp (none when
    zero), finalizer list, spec and status. -/
structure GithubIssue where
  name : String
  nspace : String
  deletionTimestamp : Option Nat
  finalizers : List String
  spec : GithubIssueSpec
  status : GithubIssueStatus
  deriving DecidableEq, Repr

/-- A credential-holder Secret: name, namespace, owning record, string data. -/
structure SecretObj where
  sname : String
  snspace : String
  ownerName : String
  data : List (String × String)
  deriving DecidableEq, Repr

/-- `resources.CreateSecret` (secret_resource.go:13-37): an empty-token secret
    named `<record>-token-secret`, owner-referenced to the record. -/
def mkSecretFor (gi : GithubIssue) : SecretObj :=
  { sname := gi.name ++ "-token-secret", snspace := gi.nspace,
    ownerName := gi.name, data := [("token", "")] }

/-- The `secret.Data["token"]` read (controller line 101). -/
def lookupToken (s : SecretObj) : Option String := s.data.lookup "token"

/-- Modelled from the spec: `status.UpdateTokenRequired` (referenced by the
    controller but not included under src/) writes the record's tokenRequired
    status flag through the status channel. -/
def UpdateTokenRequired (gi : GithubIssue) (required : Bool) : GithubIssue :=
  { gi with status := { gi.status with tokenRequired := required } }

/-- Go's narrowing conversion `int32(n)`: two's-complement wrap into
    [-2^31, 2^31). -/
def wrapInt32 (n : Int) : Int := (n + 2147483648) % 4294967296 - 2147483648

/-- The pure projection inside `status.Update` (status.go:14-58): dereferences
    `*issue.State` and `*issue.Number` (none = the Go code panics), builds the
    IssueOpen and HasPR conditions (their messages format the raw int), and
    sets the issue number — narrowed by `int32(*issue.Number)` at status.go:57,
    modelled by `wrapInt32` — and lastUpdated. -/
def statusProject (gi : GithubIssue) (issue : RemoteIssue) (now : Nat) :
    Option GithubIssue :=
  match issue.state, issue.number with
  | some st, some n =>
    let openCond : Condition :=
      if st == "open" then
        { ctype := "IssueOpen", cstatus := true, reason := "IssueIsOpen",
          message := "Issue #" ++ toString n ++ " is currently open",
          lastTransitionTime := now }
      else
        { ctype := "IssueOpen", cstatus := false, reason := "IssueIsClosed",
          message := "Issue #" ++ toString n ++ " is closed",
          lastTransitionTime := now }
    let prCond : Condition :=
      if issue.pullRequestLinks then
        { ctype := "HasPR", cstatus := true, reason := "PullRequestExists",
          message := "This issue has an associated pull request",
          lastTransitionTime := now }
      else
        { ctype := "HasPR", cstatus := false, reason := "NoPullRequest",
          message := "This issue does not have an associated pull request",
          lastTransitionTime := now }
    some { gi with status := { gi.status with
             conditions := [openCond, prCond], issueNumber := wrapInt32 n,
             lastUpdated := some now } }
  | _, _ => none

/-- Calls issued during a reconcile pass, in order. -/
inductive Event where
  | listIssues
  | createIssue (title body : String)
  | updateIssue (number : Int) (title body : String)
  | closeIssue (number : Int)
  | createSecretCall
  | tokenRequiredWrite (required : Bool)
  | tokenRead (token : String)
  | ensureFinalizer
  | removeFinalizer
  | crDelete
  | statusWrite
  deriving DecidableEq, Repr

/-- Outcome of a store persist attempt. -/
inductive PersistOutcome where
  | ok
  | conflict
  | err
  deriving DecidableEq, Repr

/-- Externally determined outcomes for one reconcile pass: the secret fetched,
    the issue-listing result, failure switches for each fallible call, the
    remote-assigned number for a create, and the clock. -/
structure Env where
  secret : Option SecretObj
  listResult : Except String (List RemoteIssue)
  createFails : Bool
  updateFails : Bool
  closeFails : Bool
  crDeleteFails : Bool
  removeFinalizerFails : Bool
  ensureFinalizerFails : Bool
  createSecretFails : Bool
  tokenReqPersistFails : Bool
  statusPersist : PersistOutcome
  freshNumber : Int
  now : Nat

/-- The close-if-open step of `status.Delete` (status.go:81-87): on a found
    issue the state is dereferenced raw (`none` = the Go code panics) and an
    open issue is closed at its nil-safe-getter number. -/
def closeStep (env : Env) (found : Option RemoteIssue) :
    Option (List Event × Option String) :=
  match found with
  | some issue =>
    match issue.state with
    | none => none
    | some st =>
      if st == "open" then
        if env.closeFails then
          some ([Event.listIssues, Event.closeIssue issue.getNumber],
                some "failed to close issue")
        else
          some ([Event.listIssues, Event.closeIssue issue.getNumber], none)
      else
        some ([Event.listIssues], none)
  | none => some ([Event.listIssues], none)

/-- `status.Delete` (status.go:68-95): parse the repo URL, scan for the issue,
    close it when found and open (state dereferenced raw: `none` = panic; the
    number goes through the nil-safe getter), then request the CR delete.
    Returns the calls made and the surfaced error, `none` for a panic. -/
def statusDelete (gi : GithubIssue) (env : Env) :
    Option (List Event × Option String) :=
  match ParseRepoUrl gi.spec.repo with
  | .error e => some ([], some ("failed to parse repo url: " ++ e))
  | .ok _ =>
    match CheckIssueExists env.listResult gi.spec.title gi.status.issueNumber with
    | .error e => some ([Event.listIssues], some ("failed to check if issue exists: " ++ e))
    | .ok found =>
      match closeStep env found with
      | none => none
      | some (evs, some e) => some (evs, some e)
      | some (evs, none) =>
        if env.crDeleteFails then
          some (evs ++ [Event.crDelete], some "failed to delete GithubIssue")
        else
          some (evs ++ [Event.crDelete], none)

/-- The status-write tail of the sync path (controller lines 157-168): project
    the status (panic = `none`), attempt the status persist; a write conflict
    yields a 5-second requeue with no error, other failures surface the error. -/
def syncStatusTail (gi1 : GithubIssue) (env : Env) (issue : RemoteIssue)
    (evs : List Event) :
    Option (List Event × (Bool × Nat) × Option String × GithubIssue) :=
  match statusProject gi1 issue env.now with
  | none => none
  | some gi2 =>
    match env.statusPersist with
    | .ok => some (evs ++ [Event.statusWrite], (false, 0), none, gi2)
    | .conflict => some (evs ++ [Event.statusWrite], (false, 5), none, gi1)
    | .err =>
      some (evs ++ [Event.statusWrite], (false, 0),
            some "unable to update GithubIssue", gi1)

/-- The sync section of `Reconcile` after a usable token (controller lines
    120-168): ensure the finalizer, parse the repo URL, scan for the issue,
    create or update it, then write status. Returns the calls made, the
    (requeue, requeueAfterSeconds) directive, the surfaced error and the
    persisted record; `none` models a Go panic. -/
def syncPhase (gi1 : GithubIssue) (env : Env) :
    Option (List Event × (Bool × Nat) × Option String × GithubIssue) :=
  if env.ensureFinalizerFails then
    some ([Event.ensureFinalizer], (true, 0), some "unable to add finalizer", gi1)
  else
    match ParseRepoUrl gi1.spec.repo with
    | .error e => some ([Event.ensureFinalizer], (false, 0), some e, gi1)
    | .ok _ =>
      match CheckIssueExists env.listResult gi1.spec.title gi1.status.issueNumber with
      | .error e =>
        some ([Event.ensureFinalizer, Event.listIssues], (false, 0), some e, gi1)
      | .ok none =>
        if env.createFails then
          some ([Event.ensureFinalizer, Event.listIssues,
                 Event.createIssue gi1.spec.title gi1.spec.description],
                (false, 0), some "unable to create issue", gi1)
        else
          syncStatusTail gi1 env
            (createdIssue gi1.spec.title gi1.spec.description env.freshNumber)
            [Event.ensureFinalizer, Event.listIssues,
             Event.createIssue gi1.spec.title gi1.spec.description]
      | .ok (some i) =>
        match i.number with
        | none => none
        | some n =>
          if env.updateFails then
            some ([Event.ensureFinalizer, Event.listIssues,
                   Event.updateIssue n gi1.spec.title gi1.spec.description],
                  (false, 0), some "unable to update issue", gi1)
          else
            syncStatusTail gi1 env
              (applyRequest
                { rtitle := some gi1.spec.title,
                  rbody := some gi1.spec.description, rstate := none } i)
              [Event.ensureFinalizer, Event.listIssues,
               Event.updateIssue n gi1.spec.title gi1.spec.description]

/-- The full observable outcome of one reconcile pass. -/
structure ReconcileOut where
  events : List Event
  requeue : Bool
  requeueAfterSeconds : Nat
  error : Option String
  record : GithubIssue
  erased : Bool
  createdSecret : Option SecretObj
  clientToken : Option String
  deriving DecidableEq, Repr

/-- Fallback output for safe `Option.getD` use in closed statements. -/
def noOut : ReconcileOut :=
  { events := [], requeue := false, requeueAfterSeconds := 0, error := none,
    record := { name := "", nspace := "", deletionTimestamp := none,
                finalizers := [], spec := { repo := "", title := "", description := "" },
                status := { conditions := [], issueNumber := 0,
                            lastUpdated := none, tokenRequired := false } },
    erased := false, createdSecret := none, clientToken := none }

/-- `GithubIssueReconciler.Reconcile` (githubissue_controller.go:52-169) for a
    fetched record: the teardown branch (deletion timestamp set) runs
    `statusDelete` then removes the finalizer (modelled from the spec, the
    finalizer package not being under src/: erasure completes exactly when the
    CR delete succeeded and the guard was removed); otherwise the token is
    resolved three ways before the sync section runs. `none` models a panic. -/
def Reconcile (gi : GithubIssue) (env : Env) : Option ReconcileOut :=
  if gi.deletionTimestamp.isSome then
    match statusDelete gi env with
    | none => none
    | some (evs, some e) =>
      some { events := evs, requeue := false, requeueAfterSeconds := 0,
             error := some e, record := gi, erased := false,
             createdSecret := none, clientToken := none }
    | some (evs, none) =>
      if env.removeFinalizerFails then
        some { events := evs ++ [Event.removeFinalizer], requeue := false,
               requeueAfterSeconds := 0, error := some "unable to remove finalizer",
               record := gi, erased := false, createdSecret := none,
               clientToken := none }
      else
        some { events := evs ++ [Event.removeFinalizer], requeue := false,
               requeueAfterSeconds := 0, error := none,
               record := { gi with finalizers := [] }, erased := true,
               createdSecret := none, clientToken := none }
  else
    match env.secret with
    | none =>
      if env.createSecretFails then
        some { events := [Event.createSecretCall], requeue := false,
               requeueAfterSeconds := 0, error := some "failed to create secret",
               record := gi, erased := false, createdSecret := none,
               clientToken := none }
      else if env.tokenReqPersistFails then
        some { events := [Event.createSecretCall, Event.tokenRequiredWrite true],
               requeue := false, requeueAfterSeconds := 0,
               error := some "unable to update TokenRequired status",
               record := gi, erased := false,
               createdSecret := some (mkSecretFor gi), clientToken := none }
      else
        some { events := [Event.createSecretCall, Event.tokenRequiredWrite true],
               requeue := true, requeueAfterSeconds := 0, error := none,
               record := UpdateTokenRequired gi true, erased := false,
               createdSecret := some (mkSecretFor gi), clientToken := none }
    | some s =>
      match lookupToken s with
      | none =>
        if env.tokenReqPersistFails then
          some { events := [Event.tokenRequiredWrite true], requeue := false,
                 requeueAfterSeconds := 0,
                 error := some "unable to update TokenRequired status",
                 record := gi, erased := false, createdSecret := none,
                 clientToken := none }
        else
          some { events := [Event.tokenRequiredWrite true], requeue := false,
                 requeueAfterSeconds := 60, error := none,
                 record := UpdateTokenRequired gi true, erased := false,
                 createdSecret := none, clientToken := none }
      | some tok =>
        if tok == "" then
          if env.tokenReqPersistFails then
            some { events := [Event.tokenRequiredWrite true], requeue := false,
                   requeueAfterSeconds := 0,
                   error := some "unable to update TokenRequired status",
                   record := gi, erased := false, createdSecret := none,
                   clientToken := none }
          else
            some { events := [Event.tokenRequiredWrite true], requeue := false,
                   requeueAfterSeconds := 60, error := none,
                   record := UpdateTokenRequired gi true, erased := false,
                   createdSecret := none, clientToken := none }
        else
          if env.tokenReqPersistFails then
            some { events := [Event.tokenRead tok, Event.tokenRequiredWrite false],
                   requeue := false, requeueAfterSeconds := 0,
                   error := some "unable to update TokenRequired status",
                   record := gi, erased := false, createdSecret := none,
                   clientToken := some tok }
          else
            match syncPhase (UpdateTokenRequired gi false) env with
            | none => none
            | some (evs, dir, err, rec) =>
              some { events := Event.tokenRead tok :: Event.tokenRequiredWrite false :: evs,
                     requeue := dir.1, requeueAfterSeconds := dir.2, error := err,
                     record := rec, erased := false, createdSecret := none,
                     clientToken := some tok }

/-- Remote-issue mutating calls in the sense of P4: create, update, close. -/
def isRemoteMutation : Event → Bool
  | .createIssue _ _ => true
  | .updateIssue _ _ _ => true
  | .closeIssue _ => true
  | _ => false

/-- The sync-path mutating calls only: create and update. -/
def isSyncMutation : Event → Bool
  | .createIssue _ _ => true
  | .updateIssue _ _ _ => true
  | _ => false

/-- A successful read of a non-empty token. -/
def isGoodTokenRead : Event → Bool
  | .tokenRead t => !(t == "")
  | _ => false

/-- Checks that along a trace every event satisfying `isMut` is preceded by a
    successful non-empty token read; `seen` records whether one occurred. -/
def gatedAux (isMut : Event → Bool) (seen : Bool) : List Event → Bool
  | [] => true
  | e :: es => (!(isMut e) || seen) && gatedAux isMut (seen || isGoodTokenRead e) es

/-- Modelled from the spec: the store's scheduler retries a pass that returns
    an error (default backoff) or an explicit requeue directive. -/
def retryScheduled (out : ReconcileOut) : Bool :=
  out.requeue || !(out.requeueAfterSeconds == 0) || out.error.isSome

/-- Occurrence of `sub` as a contiguous sublist. -/
def hasSublist (sub : List Char) : List Char → Bool
  | [] => sub.isEmpty
  | x :: xs => sub.isPrefixOf (x :: xs) || hasSublist sub xs

/-- Substring test: at least one occurrence of `sub` in `s`. -/
def containsSubstrB (s sub : String) : Bool := hasSublist sub.data s.data

/-- The message embeds the issue number in its "#N" form. -/
def MessageEmbedsNumber (msg : String) (n : Int) : Prop :=
  ∃ pre post, msg = pre ++ "#" ++ toString n ++ post

/-- The remote-state effect of one pass of the sync section (controller lines
    135-156) together with the remote semantics: scan for the issue; create one
    when absent; otherwise edit title and body at the raw-dereferenced number
    (`none` models the panic on a missing number). Returns the new remote list
    and the issue value the pass ends with (the one the status write records). -/
def syncStep (issues : List RemoteIssue) (title description : String)
    (known : Int) (fresh : Int) : Option (List RemoteIssue × RemoteIssue) :=
  match findIssue issues title known with
  | none =>
    let ni := createdIssue title description fresh
    some (issues ++ [ni], ni)
  | some i =>
    match i.number with
    | none => none
    | some n =>
      let req : IssueRequest :=
        { rtitle := some title, rbody := some description, rstate := none }
      some (editIssues issues n req, applyRequest req i)

/-- Issue #1 whose title collides with the requested title. -/
def collideA : RemoteIssue :=
  { number := some 1, title := some "T", body := none, state := some "open",
    pullRequestLinks := false }

/-- Issue #2 carrying the known number. -/
def collideB : RemoteIssue :=
  { number := some 2, title := some "X", body := none, state := some "open",
    pullRequestLinks := false }

/-- C3 counterexample: with knownNumber 2 matching issue #2, the scan still
    returns the earlier issue #1 whose title matches — the title collision DOES
    shadow the known numeric identity, contrary to the claimed precedence. -/
theorem title_match_shadows_number :
    findIssue [collideA, collideB] "T" 2 = some collideA ∧
    collideA.getNumber ≠ 2 ∧ collideB ∈ [collideA, collideB] ∧
    collideB.getNumber = 2 := by
  refine ⟨rfl, by decide, by decide, by decide⟩

/-- C3 (amended): `CheckIssueExists` returns the first issue in list order
    whose title equals the requested title OR whose number equals knownNumber,
    with no precedence between the two criteria (later elements cannot change
    the result once some element matches); when nothing matches it returns
    none without error. -/
theorem findIssue_first_match_amended (issues : List RemoteIssue)
    (title : String) (kn : Int) :
    (∀ i, findIssue issues title kn = some i →
       i ∈ issues ∧ (i.getTitle = title ∨ i.getNumber = kn)) ∧
    (findIssue issues title kn = none ↔
       ∀ i ∈ issues, i.getTitle ≠ title ∧ i.getNumber ≠ kn) ∧
    (∀ pre i post, issues = pre ++ i :: post →
       (i.getTitle = title ∨ i.getNumber = kn) →
       findIssue issues title kn = findIssue (pre ++ [i]) title kn) ∧
    CheckIssueExists (Except.ok issues) title kn =
      Except.ok (findIssue issues title kn) := by
  refine ⟨?_, ?_, ?_, rfl⟩
  · intro i h
    refine ⟨List.mem_of_find?_eq_some h, ?_⟩
    have hp := List.find?_some h
    rcases Bool.or_eq_true_iff.mp hp with h1 | h1
    · exact Or.inl (by simpa using h1)
    · exact Or.inr (by simpa using h1)
  · rw [findIssue, List.find?_eq_none]
    constructor
    · intro h i hi
      have := h i hi
      simp at this
      exact this
    · intro h i hi
      have := h i hi
      simp [this.1, this.2]
  · intro pre i post hsplit hmatch
    have hpi : (i.getTitle == title || i.getNumber == kn) = true := by
      rcases hmatch with h1 | h1 <;> simp [h1]
    unfold findIssue
    rw [hsplit, List.find?_append, List.find?_append]
    have h1 : List.find? (fun issue => issue.getTitle == title || issue.getNumber == kn)
        (i :: post) = some i := by
      simp [List.find?_cons, hpi]
    have h2 : List.find? (fun issue => issue.getTitle == title || issue.getNumber == kn)
        [i] = some i := by
      simp [List.find?_cons, hpi]
    rw [h1, h2]

/-- A single matching issue used to witness the amended C3 theorem. -/
def wIssue : RemoteIssue :=
  { number := some 9, title := some "W", body := none, state := some "open",
    pullRequestLinks := false }

/-- Witness for the amended C3 theorem at concrete inputs. -/
theorem findIssue_first_match_amended_witness :
    (wIssue ∈ [wIssue] ∧ (wIssue.getTitle = "W" ∨ wIssue.getNumber = -1)) ∧
    findIssue ([] : List RemoteIssue) "W" 5 = none ∧
    findIssue [wIssue] "W" (-1) = findIssue ([] ++ [wIssue]) "W" (-1) := by
  refine ⟨(findIssue_first_match_amended [wIssue] "W" (-1)).1 wIssue (by rfl), ?_, ?_⟩
  · exact (findIssue_first_match_amended [] "W" 5).2.1.mpr (by simp)
  · exact (findIssue_first_match_amended [wIssue] "W" (-1)).2.2.1 [] wIssue []
      rfl (Or.inl (by decide))

/-- C5 counterexample: on "https://github.com/a//b" the code returns ("a", "")
    — the first two raw segments, the second empty — while the spec's
    first-two-NON-empty-segments contract would return ("a", "b"). -/
theorem parse_empty_segment :
    ParseRepoUrl "https://github.com/a//b" = Except.ok ("a", "") ∧
    parseRepoRefSpecWords "https://github.com/a//b" = Except.ok ("a", "b") := by
  exact ⟨rfl, rfl⟩

/-- C5 (amended): `ParseRepoUrl` strips the "https://github.com/" prefix when
    present, splits on "/", succeeds exactly when at least two segments remain
    (EMPTY segments included), and then returns the first two raw segments;
    it is pure by construction. -/
theorem parseRepoUrl_amended (s : String) :
    (∀ o r, ParseRepoUrl s = Except.ok (o, r) →
       (repoParts s).take 2 = [o, r]) ∧
    ((ParseRepoUrl s).isOk = true ↔ 2 ≤ (repoParts s).length) := by
  cases hp : repoParts s with
  | nil => simp [ParseRepoUrl, hp, Except.isOk, Except.toBool]
  | cons a t =>
    cases t with
    | nil => simp [ParseRepoUrl, hp, Except.isOk, Except.toBool]
    | cons b rest =>
      constructor
      · intro o r h
        simp only [ParseRepoUrl, hp] at h
        rw [if_neg (by simp)] at h
        injection h with h2
        injection h2 with ho hr
        simp only [List.getD, List.get?, Option.getD] at ho hr
        simp [List.take]
        exact ⟨by simpa using ho, by simpa using hr⟩
      · constructor
        · intro _
          simp [hp]
        · intro _
          simp only [ParseRepoUrl, Except.isOk, Except.toBool, hp]
          rw [if_neg (by simp)]

/-- Witness for the amended C5 theorem at a concrete URL. -/
theorem parseRepoUrl_amended_witness :
    ((repoParts "https://github.com/acme/widgets").take 2 = ["acme", "widgets"]) ∧
    (ParseRepoUrl "https://github.com/acme/widgets").isOk = true := by
  constructor
  · exact (parseRepoUrl_amended "https://github.com/acme/widgets").1
      "acme" "widgets" (by rfl)
  · exact (parseRepoUrl_amended "https://github.com/acme/widgets").2.mpr (by decide)

/-- A sample record used in concrete evaluations. -/
def giSample : GithubIssue :=
  { name := "test-resource", nspace := "default", deletionTimestamp := none,
    finalizers := [], spec := { repo := "https://github.com/a/b", title := "T",
                                description := "D" },
    status := { conditions := [], issueNumber := 0, lastUpdated := none,
                tokenRequired := false } }

/-- Remote issue #42, open, no linked pull request. -/
def issue42open : RemoteIssue :=
  { number := some 42, title := some "T", body := some "D",
    state := some "open", pullRequestLinks := false }

/-- C8 counterexample: the projection yields two conditions, but the HasPR
    condition's message is a fixed sentence that does NOT embed the remote
    issue number (here 42) — contrary to the claim that each condition's
    message embeds the number. -/
theorem haspr_message_lacks_number :
    (statusProject giSample issue42open 7).map
        (fun g => (g.status.conditions.length,
                   containsSubstrB ((g.status.conditions.getD 1 noCondition).message) "42"))
      = some (2, false) := by
  rfl

/-- C8 (amended): the projection produces exactly the IssueOpen and HasPR
    conditions with the code's fixed reason strings; IssueOpen is true iff the
    remote state is "open", HasPR true iff a pull-request link is present; the
    IssueOpen message embeds the (raw, unnarrowed) issue number while the HasPR
    message is one of two fixed sentences; the stored issue number is the
    remote number narrowed to int32 (two's-complement wrap), lastUpdated is
    set, and the write is status-only (spec and identity untouched). -/
theorem status_projection_amended (gi : GithubIssue) (issue : RemoteIssue)
    (now : Nat) (g : GithubIssue)
    (h : statusProject gi issue now = some g) :
    g.spec = gi.spec ∧
    g.name = gi.name ∧
    g.status.conditions.map (fun c => c.ctype) = ["IssueOpen", "HasPR"] ∧
    g.status.conditions.map (fun c => c.cstatus) =
      [issue.state == some "open", issue.pullRequestLinks] ∧
    g.status.conditions.map (fun c => c.reason) =
      [if issue.state == some "open" then "IssueIsOpen" else "IssueIsClosed",
       if issue.pullRequestLinks then "PullRequestExists" else "NoPullRequest"] ∧
    MessageEmbedsNumber ((g.status.conditions.getD 0 noCondition).message)
      issue.getNumber ∧
    ((g.status.conditions.getD 1 noCondition).message =
      if issue.pullRequestLinks then "This issue has an associated pull request"
      else "This issue does not have an associated pull request") ∧
    (∀ c ∈ g.status.conditions, c.lastTransitionTime = now) ∧
    g.status.issueNumber = wrapInt32 issue.getNumber ∧
    g.status.lastUpdated = some now ∧
    g.status.tokenRequired = gi.status.tokenRequired := by
  cases hst : issue.state with
  | none => simp [statusProject, hst] at h
  | some st =>
    cases hn : issue.number with
    | none => simp [statusProject, hst, hn] at h
    | some n =>
      simp only [statusProject, hst, hn] at h
      injection h with h
      subst h
      cases hopen : st == "open" <;> cases hpr : issue.pullRequestLinks <;>
        simp [hopen, hpr, MessageEmbedsNumber, RemoteIssue.getNumber, hn] <;>
        first
          | exact ⟨"Issue ", " is currently open", rfl⟩
          | exact ⟨"Issue ", " is closed", rfl⟩

/-- Remote issue numbered one past the int32 maximum. -/
def issueBig : RemoteIssue :=
  { number := some 2147483648, title := some "T", body := none,
    state := some "open", pullRequestLinks := false }

/-- Witness for the amended C8 theorem at concrete inputs: an in-range number
    is stored as is, an out-of-range number is stored wrapped. -/
theorem status_projection_amended_witness :
    ((statusProject giSample issue42open 7).getD giSample).status.issueNumber = 42 ∧
    ((statusProject giSample issueBig 7).getD giSample).status.issueNumber =
      -2147483648 ∧
    ((statusProject giSample issue42open 7).getD giSample).status.lastUpdated = some 7 := by
  have h := status_projection_amended giSample issue42open 7
    ((statusProject giSample issue42open 7).getD giSample) (by rfl)
  have hbig := status_projection_amended giSample issueBig 7
    ((statusProject giSample issueBig 7).getD giSample) (by rfl)
  refine ⟨by rfl, ?_, h.2.2.2.2.2.2.2.2.2.1⟩
  rw [hbig.2.2.2.2.2.2.2.2.1]
  rfl

/-- A remote issue missing its number but open, with a matching title. -/
def noNumIssue : RemoteIssue :=
  { number := none, title := some "T", body := none, state := some "open",
    pullRequestLinks := false }

/-- A record marked for deletion. -/
def giDeleting : GithubIssue :=
  { name := "r", nspace := "default", deletionTimestamp := some 1,
    finalizers := ["issue.core.github.io/finalizer"],
    spec := { repo := "https://github.com/a/b", title := "T", description := "" },
    status := { conditions := [], issueNumber := 7, lastUpdated := none,
                tokenRequired := false } }

/-- Environment whose listing returns only the number-less open issue. -/
def envNoNum : Env :=
  { secret := none, listResult := .ok [noNumIssue], createFails := false,
    updateFails := false, closeFails := false, crDeleteFails := false,
    removeFinalizerFails := false, ensureFinalizerFails := false,
    createSecretFails := false, tokenReqPersistFails := false,
    statusPersist := .ok, freshNumber := 0, now := 0 }

/-- C10 counterexample: the teardown routine is perfectly defined on a found
    issue whose number is absent — it closes issue #0 through the nil-safe
    getter — so "missing either field makes both operations undefined" is
    false; only the projection is undefined there. -/
theorem delete_defined_without_number :
    findIssue [noNumIssue] "T" 7 = some noNumIssue ∧
    noNumIssue.number = none ∧
    statusDelete giDeleting envNoNum =
      some ([Event.listIssues, Event.closeIssue 0, Event.crDelete], none) ∧
    (statusProject giDeleting noNumIssue 0).isSome = false := by
  exact ⟨rfl, rfl, rfl, rfl⟩

/-- C10 (amended): the status projection dereferences both the remote state
    and number, so it is defined exactly when both are present; the teardown
    routine raw-dereferences only the state of the issue it finds (its number
    access is the nil-safe getter), so it is defined exactly when the found
    issue carries a state, and always defined when nothing is found or the
    parse or listing step already failed. -/
theorem deref_totality_amended :
    (∀ (gi : GithubIssue) (issue : RemoteIssue) (now : Nat),
      (statusProject gi issue now).isSome = true ↔
        (issue.state.isSome ∧ issue.number.isSome)) ∧
    (∀ (gi : GithubIssue) (env : Env) (issues : List RemoteIssue) (i : RemoteIssue),
      env.listResult = Except.ok issues →
      (ParseRepoUrl gi.spec.repo).isOk = true →
      findIssue issues gi.spec.title gi.status.issueNumber = some i →
      ((statusDelete gi env).isSome = true ↔ i.state.isSome)) ∧
    (∀ (gi : GithubIssue) (env : Env) (issues : List RemoteIssue),
      env.listResult = Except.ok issues →
      findIssue issues gi.spec.title gi.status.issueNumber = none →
      (statusDelete gi env).isSome = true) ∧
    (∀ (gi : GithubIssue) (env : Env),
      (ParseRepoUrl gi.spec.repo).isOk = false →
      (statusDelete gi env).isSome = true) := by
  refine ⟨?_, ?_, ?_, ?_⟩
  · intro gi issue now
    cases hst : issue.state <;> cases hn : issue.number <;>
      simp [statusProject, hst, hn]
  · intro gi env issues i hlist hok hfind
    cases hp : ParseRepoUrl gi.spec.repo with
    | error e => simp [hp, Except.isOk, Except.toBool] at hok
    | ok pr =>
      simp only [statusDelete, hp, CheckIssueExists, hlist, hfind]
      cases hst : i.state with
      | none => simp [closeStep, hst]
      | some st =>
        cases hopen : st == "open" <;> cases hcf : env.closeFails <;>
          cases hdf : env.crDeleteFails <;> simp [closeStep, hst, hopen, hcf, hdf]
  · intro gi env issues hlist hfind
    cases hp : ParseRepoUrl gi.spec.repo with
    | error e => simp [statusDelete, hp]
    | ok pr =>
      simp only [statusDelete, hp, CheckIssueExists, hlist, hfind]
      cases hdf : env.crDeleteFails <;> simp [closeStep, hdf]
  · intro gi env hbad
    cases hp : ParseRepoUrl gi.spec.repo with
    | error e => simp [statusDelete, hp]
    | ok pr => simp [hp, Except.isOk, Except.toBool] at hbad

/-- A closed remote issue carrying both fields. -/
def closed7Issue : RemoteIssue :=
  { number := some 7, title := some "T", body := none, state := some "closed",
    pullRequestLinks := false }

/-- Environment whose listing returns the closed issue #7. -/
def envClosed7 : Env :=
  { secret := none, listResult := .ok [closed7Issue], createFails := false,
    updateFails := false, closeFails := false, crDeleteFails := false,
    removeFinalizerFails := false, ensureFinalizerFails := false,
    createSecretFails := false, tokenReqPersistFails := false,
    statusPersist := .ok, freshNumber := 0, now := 0 }

/-- Witness for the amended C10 theorem at concrete inputs. -/
theorem deref_totality_amended_witness :
    (statusProject giDeleting closed7Issue 3).isSome = true ∧
    (statusDelete giDeleting envClosed7).isSome = true := by
  refine ⟨?_, ?_⟩
  · exact (deref_totality_amended.1 giDeleting closed7Issue 3).mpr (by decide)
  · exact (deref_totality_amended.2.1 giDeleting envClosed7 [closed7Issue]
      closed7Issue (by rfl) (by decide) (by rfl)).mpr (by decide)

/-- Helper: the status projection only rewrites conditions, issueNumber and
    lastUpdated — identity, spec and the tokenRequired flag are preserved. -/
theorem statusProject_preserves (gi : GithubIssue) (issue : RemoteIssue)
    (now : Nat) (g : GithubIssue) (h : statusProject gi issue now = some g) :
    g.status.tokenRequired = gi.status.tokenRequired ∧ g.spec = gi.spec ∧
    g.name = gi.name := by
  cases hst : issue.state with
  | none => simp [statusProject, hst] at h
  | some st =>
    cases hn : issue.number with
    | none => simp [statusProject, hst, hn] at h
    | some n =>
      simp only [statusProject, hst, hn] at h
      injection h with h
      subst h
      exact ⟨rfl, rfl, rfl⟩

/-- Helper: every outcome of the status-write tail carries the input event
    list plus the status write, and preserves spec and tokenRequired. -/
theorem syncStatusTail_shape (gi1 : GithubIssue) (env : Env)
    (issue : RemoteIssue) (evs0 evs : List Event) (dir : Bool × Nat)
    (err : Option String) (rec : GithubIssue)
    (h : syncStatusTail gi1 env issue evs0 = some (evs, dir, err, rec)) :
    evs = evs0 ++ [Event.statusWrite] ∧
    rec.status.tokenRequired = gi1.status.tokenRequired ∧
    rec.spec = gi1.spec := by
  cases hproj : statusProject gi1 issue env.now with
  | none => simp [syncStatusTail, hproj] at h
  | some gi2 =>
    have hpres := statusProject_preserves gi1 issue env.now gi2 hproj
    cases hsp : env.statusPersist <;>
      simp only [syncStatusTail, hproj, hsp] at h <;>
      · injection h with h
        injection h with h1 h
        injection h with h2 h
        injection h with h3 h4
        subst h1; subst h4
        first
          | exact ⟨rfl, hpres.1, hpres.2.1⟩
          | exact ⟨rfl, rfl, rfl⟩

/-- Helper: every outcome of the sync section begins its event list with the
    finalizer-ensure call and preserves spec and tokenRequired. -/
theorem syncPhase_shape (gi1 : GithubIssue) (env : Env) (evs : List Event)
    (dir : Bool × Nat) (err : Option String) (rec : GithubIssue)
    (h : syncPhase gi1 env = some (evs, dir, err, rec)) :
    Event.ensureFinalizer ∈ evs ∧
    rec.status.tokenRequired = gi1.status.tokenRequired ∧
    rec.spec = gi1.spec := by
  cases hef : env.ensureFinalizerFails with
  | true =>
    simp only [syncPhase, hef, if_true] at h
    injection h with h
    injection h with h1 h
    injection h with h2 h
    injection h with h3 h4
    subst h1; subst h4
    exact ⟨by simp, rfl, rfl⟩
  | false =>
    simp only [syncPhase, hef, Bool.false_eq_true, if_false] at h
    cases hp : ParseRepoUrl gi1.spec.repo with
    | error e =>
      simp only [hp] at h
      injection h with h
      injection h with h1 h
      injection h with h2 h
      injection h with h3 h4
      subst h1; subst h4
      exact ⟨by simp, rfl, rfl⟩
    | ok pr =>
      simp only [hp] at h
      cases hl : CheckIssueExists env.listResult gi1.spec.title gi1.status.issueNumber with
      | error e =>
        simp only [hl] at h
        injection h with h
        injection h with h1 h
        injection h with h2 h
        injection h with h3 h4
        subst h1; subst h4
        exact ⟨by simp, rfl, rfl⟩
      | ok found =>
        simp only [hl] at h
        cases found with
        | none =>
          cases hcf : env.createFails with
          | true =>
            simp only [hcf, if_true] at h
            injection h with h
            injection h with h1 h
            injection h with h2 h
            injection h with h3 h4
            subst h1; subst h4
            exact ⟨by simp, rfl, rfl⟩
          | false =>
            simp only [hcf, Bool.false_eq_true, if_false] at h
            have := syncStatusTail_shape gi1 env _ _ evs dir err rec h
            exact ⟨by simp [this.1], this.2.1, this.2.2⟩
        | some i =>
          cases hn : i.number with
          | none =>
            simp only [hn] at h
            exact Option.noConfusion h
          | some n =>
            simp only [hn] at h
            cases huf : env.updateFails with
            | true =>
              simp only [huf, if_true] at h
              injection h with h
              injection h with h1 h
              injection h with h2 h
              injection h with h3 h4
              subst h1; subst h4
              exact ⟨by simp, rfl, rfl⟩
            | false =>
              simp only [huf, Bool.false_eq_true, if_false] at h
              have := syncStatusTail_shape gi1 env _ _ evs dir err rec h
              exact ⟨by simp [this.1], this.2.1, this.2.2⟩

/-- Helper: with no deletion intent and a non-empty token in the fetched
    secret, a pass is the sync section's outcome wrapped behind the token-read
    and tokenRequired=false writes. -/
theorem reconcile_sync_branch (gi : GithubIssue) (env : Env) (s : SecretObj)
    (tok : String)
    (hdel : gi.deletionTimestamp = none)
    (hsec : env.secret = some s)
    (htok : lookupToken s = some tok)
    (hne : (tok == "") = false)
    (htr : env.tokenReqPersistFails = false) :
    Reconcile gi env = (syncPhase (UpdateTokenRequired gi false) env).map
      (fun x =>
        { events := Event.tokenRead tok :: Event.tokenRequiredWrite false :: x.1,
          requeue := x.2.1.1, requeueAfterSeconds := x.2.1.2,
          error := x.2.2.1, record := x.2.2.2, erased := false,
          createdSecret := none, clientToken := some tok }) := by
  cases hsp : syncPhase (UpdateTokenRequired gi false) env with
  | none => simp [Reconcile, hdel, hsec, htok, hne, htr, hsp]
  | some q =>
    obtain ⟨evs, dir, err, rec⟩ := q
    simp [Reconcile, hdel, hsec, htok, hne, htr, hsp]

/-- Helper: under a write conflict the status-write tail returns the 5-second
    requeue directive with no error. -/
theorem syncStatusTail_conflict (gi1 : GithubIssue) (env : Env)
    (issue : RemoteIssue) (evs0 evs : List Event) (dir : Bool × Nat)
    (err : Option String) (rec : GithubIssue)
    (hconf : env.statusPersist = PersistOutcome.conflict)
    (h : syncStatusTail gi1 env issue evs0 = some (evs, dir, err, rec)) :
    dir = (false, 5) ∧ err = none := by
  cases hproj : statusProject gi1 issue env.now with
  | none => simp [syncStatusTail, hproj] at h
  | some gi2 =>
    simp only [syncStatusTail, hproj, hconf] at h
    injection h with h
    injection h with h1 h
    injection h with h2 h
    injection h with h3 h4
    exact ⟨h2.symm, h3.symm⟩

/-- Helper: under a write conflict the whole sync section yields the 5-second
    requeue directive with no error (given the steps before the status write
    succeed). -/
theorem syncPhase_conflict (gi1 : GithubIssue) (env : Env)
    (issues : List RemoteIssue) (evs : List Event) (dir : Bool × Nat)
    (err : Option String) (rec : GithubIssue)
    (hef : env.ensureFinalizerFails = false)
    (hpok : (ParseRepoUrl gi1.spec.repo).isOk = true)
    (hlist : env.listResult = Except.ok issues)
    (hcf : env.createFails = false)
    (huf : env.updateFails = false)
    (hconf : env.statusPersist = PersistOutcome.conflict)
    (h : syncPhase gi1 env = some (evs, dir, err, rec)) :
    dir = (false, 5) ∧ err = none := by
  cases hp : ParseRepoUrl gi1.spec.repo with
  | error e => simp [hp, Except.isOk, Except.toBool] at hpok
  | ok pr =>
    simp only [syncPhase, hef, Bool.false_eq_true, if_false, hp,
      CheckIssueExists, hlist] at h
    cases hfind : findIssue issues gi1.spec.title gi1.status.issueNumber with
    | none =>
      simp only [hfind, hcf, Bool.false_eq_true, if_false] at h
      exact syncStatusTail_conflict gi1 env _ _ evs dir err rec hconf h
    | some i =>
      simp only [hfind] at h
      cases hn : i.number with
      | none =>
        simp only [hn] at h
        exact Option.noConfusion h
      | some n =>
        simp only [hn, huf, Bool.false_eq_true, if_false] at h
        exact syncStatusTail_conflict gi1 env _ _ evs dir err rec hconf h

/-- C6: a write conflict on the status persist is never surfaced as an error:
    the pass returns success with a fixed 5-second retry directive. -/
theorem conflict_self_heal (gi : GithubIssue) (env : Env) (s : SecretObj)
    (tok : String) (out : ReconcileOut) (issues : List RemoteIssue)
    (hdel : gi.deletionTimestamp = none)
    (hsec : env.secret = some s)
    (htok : lookupToken s = some tok)
    (hne : (tok == "") = false)
    (htr : env.tokenReqPersistFails = false)
    (hef : env.ensureFinalizerFails = false)
    (hpok : (ParseRepoUrl gi.spec.repo).isOk = true)
    (hlist : env.listResult = Except.ok issues)
    (hcf : env.createFails = false)
    (huf : env.updateFails = false)
    (hconf : env.statusPersist = PersistOutcome.conflict)
    (hrec : Reconcile gi env = some out) :
    out.error = none ∧ out.requeue = false ∧ out.requeueAfterSeconds = 5 := by
  rw [reconcile_sync_branch gi env s tok hdel hsec htok hne htr] at hrec
  cases hsp : syncPhase (UpdateTokenRequired gi false) env with
  | none =>
    rw [hsp] at hrec
    exact Option.noConfusion hrec
  | some q =>
    obtain ⟨evs, dir, err, rec⟩ := q
    have hshape := syncPhase_conflict (UpdateTokenRequired gi false) env issues
      evs dir err rec hef hpok hlist hcf huf hconf hsp
    rw [hsp] at hrec
    simp only [Option.map_some'] at hrec
    injection hrec with hrec
    rw [← hrec, hshape.1, hshape.2]
    exact ⟨rfl, rfl, rfl⟩

/-- A populated token secret for the sample record. -/
def tokSecret : SecretObj :=
  { sname := "test-resource-token-secret", snspace := "default",
    ownerName := "test-resource", data := [("token", "tkn")] }

/-- Environment whose status persist hits a write conflict. -/
def envConflict : Env :=
  { secret := some tokSecret, listResult := .ok [], createFails := false,
    updateFails := false, closeFails := false, crDeleteFails := false,
    removeFinalizerFails := false, ensureFinalizerFails := false,
    createSecretFails := false, tokenReqPersistFails := false,
    statusPersist := .conflict, freshNumber := 42, now := 5 }

/-- Witness for C6 at concrete inputs. -/
theorem conflict_self_heal_witness :
    ((Reconcile giSample envConflict).getD noOut).error = none ∧
    ((Reconcile giSample envConflict).getD noOut).requeueAfterSeconds = 5 := by
  have h := conflict_self_heal giSample envConflict tokSecret "tkn"
    ((Reconcile giSample envConflict).getD noOut) [] rfl rfl rfl rfl rfl rfl
    (by decide) rfl rfl rfl rfl (by rfl)
  exact ⟨h.1, h.2.2⟩

/-- A record whose repo URL cannot be parsed. -/
def giBadRepo : GithubIssue :=
  { name := "r", nspace := "default", deletionTimestamp := none,
    finalizers := [],
    spec := { repo := "not-a-url", title := "T", description := "" },
    status := { conditions := [], issueNumber := 0, lastUpdated := none,
                tokenRequired := false } }

/-- A populated token secret for `giBadRepo`. -/
def badSecret : SecretObj :=
  { sname := "r-token-secret", snspace := "default", ownerName := "r",
    data := [("token", "tkn")] }

/-- Environment with everything healthy. -/
def envPlain : Env :=
  { secret := some badSecret, listResult := .ok [], createFails := false,
    updateFails := false, closeFails := false, crDeleteFails := false,
    removeFinalizerFails := false, ensureFinalizerFails := false,
    createSecretFails := false, tokenReqPersistFails := false,
    statusPersist := .ok, freshNumber := 1, now := 0 }

/-- C4 counterexample: with repoURL "not-a-url" the pass surfaces the parse
    error, and under the scheduler contract an error return IS retried (with
    the default backoff) — so "no retry scheduled" is false; the Result struct
    itself carries no explicit requeue directive. -/
theorem malformed_repo_retry_scheduled :
    (Reconcile giBadRepo envPlain).map
        (fun o => (retryScheduled o, o.error.isSome, o.requeue, o.requeueAfterSeconds))
      = some (true, true, false, 0) := by
  rfl

/-- C4 (amended): on a malformed repo URL the pass returns the parse error to
    the scheduler (which therefore retries it on the default backoff) with no
    explicit requeue directive; no remote ticketing call (not even a listing)
    is attempted; the record is retained, its conditions and issue number are
    unchanged, only the tokenRequired flag was rewritten (token resolution
    precedes parsing); nothing is erased. -/
theorem malformed_repo_amended (gi : GithubIssue) (env : Env) (s : SecretObj)
    (tok : String) (out : ReconcileOut) (e : String)
    (hdel : gi.deletionTimestamp = none)
    (hsec : env.secret = some s)
    (htok : lookupToken s = some tok)
    (hne : (tok == "") = false)
    (htr : env.tokenReqPersistFails = false)
    (hef : env.ensureFinalizerFails = false)
    (hperr : ParseRepoUrl gi.spec.repo = Except.error e)
    (hrec : Reconcile gi env = some out) :
    out.error = some e ∧
    out.requeue = false ∧ out.requeueAfterSeconds = 0 ∧
    out.events = [Event.tokenRead tok, Event.tokenRequiredWrite false,
                  Event.ensureFinalizer] ∧
    (∀ ev ∈ out.events, isRemoteMutation ev = false ∧ ev ≠ Event.listIssues) ∧
    out.record = UpdateTokenRequired gi false ∧
    out.record.status.conditions = gi.status.conditions ∧
    out.record.status.issueNumber = gi.status.issueNumber ∧
    out.record.spec = gi.spec ∧
    out.erased = false := by
  have hsp : syncPhase (UpdateTokenRequired gi false) env =
      some ([Event.ensureFinalizer], (false, 0), some e,
            UpdateTokenRequired gi false) := by
    simp [syncPhase, hef, UpdateTokenRequired, hperr]
  rw [reconcile_sync_branch gi env s tok hdel hsec htok hne htr, hsp] at hrec
  simp only [Option.map_some'] at hrec
  injection hrec with hrec
  subst hrec
  refine ⟨rfl, rfl, rfl, rfl, ?_, rfl, rfl, rfl, rfl, rfl⟩
  intro ev hev
  fin_cases hev <;> exact ⟨rfl, by simp⟩

/-- Witness for the amended C4 theorem at concrete inputs. -/
theorem malformed_repo_amended_witness :
    ((Reconcile giBadRepo envPlain).getD noOut).error = some "invalid repo url: not-a-url" ∧
    ((Reconcile giBadRepo envPlain).getD noOut).events =
      [Event.tokenRead "tkn", Event.tokenRequiredWrite false, Event.ensureFinalizer] := by
  have h := malformed_repo_amended giBadRepo envPlain badSecret "tkn"
    ((Reconcile giBadRepo envPlain).getD noOut) "invalid repo url: not-a-url"
    rfl rfl rfl rfl rfl rfl (by rfl) (by rfl)
  exact ⟨h.1, h.2.2.2.1⟩

/-- C7: the three-way token resolution. Holder absent: provision an
    empty-token holder owned by the record, set tokenRequired, requeue
    immediately, no remote call. Holder present but token empty or missing:
    set tokenRequired, retry after 60 seconds, no remote call. Non-empty
    token: tokenRequired is cleared, the client is built from that token and
    the pass proceeds into the sync section. -/
theorem token_resolution_branches (gi : GithubIssue) (env : Env)
    (hdel : gi.deletionTimestamp = none)
    (hcs : env.createSecretFails = false)
    (htr : env.tokenReqPersistFails = false) :
    (env.secret = none →
      Reconcile gi env = some
        { events := [Event.createSecretCall, Event.tokenRequiredWrite true],
          requeue := true, requeueAfterSeconds := 0, error := none,
          record := UpdateTokenRequired gi true, erased := false,
          createdSecret := some (mkSecretFor gi), clientToken := none } ∧
      (mkSecretFor gi).ownerName = gi.name ∧
      lookupToken (mkSecretFor gi) = some "") ∧
    (∀ s, env.secret = some s →
      (lookupToken s = none ∨ lookupToken s = some "") →
      Reconcile gi env = some
        { events := [Event.tokenRequiredWrite true], requeue := false,
          requeueAfterSeconds := 60, error := none,
          record := UpdateTokenRequired gi true, erased := false,
          createdSecret := none, clientToken := none }) ∧
    (∀ s tok out, env.secret = some s → lookupToken s = some tok →
      (tok == "") = false → Reconcile gi env = some out →
      out.clientToken = some tok ∧
      out.record.status.tokenRequired = false ∧
      out.events.head? = some (Event.tokenRead tok) ∧
      Event.ensureFinalizer ∈ out.events) := by
  refine ⟨?_, ?_, ?_⟩
  · intro h
    refine ⟨?_, rfl, rfl⟩
    simp [Reconcile, hdel, h, hcs, htr]
  · intro s hs hcase
    rcases hcase with hc | hc <;> simp [Reconcile, hdel, hs, hc, htr]
  · intro s tok out hs htok hne hrec
    rw [reconcile_sync_branch gi env s tok hdel hs htok hne htr] at hrec
    cases hsp : syncPhase (UpdateTokenRequired gi false) env with
    | none =>
      rw [hsp] at hrec
      exact Option.noConfusion hrec
    | some q =>
      obtain ⟨evs, dir, err, rec⟩ := q
      have hshape := syncPhase_shape (UpdateTokenRequired gi false) env
        evs dir err rec hsp
      rw [hsp] at hrec
      simp only [Option.map_some'] at hrec
      injection hrec with hrec
      subst hrec
      refine ⟨rfl, ?_, rfl, ?_⟩
      · exact hshape.2.1
      · exact List.mem_cons_of_mem _ (List.mem_cons_of_mem _ hshape.1)

/-- Environment with no secret yet. -/
def envNoSecret : Env :=
  { secret := none, listResult := .ok [], createFails := false,
    updateFails := false, closeFails := false, crDeleteFails := false,
    removeFinalizerFails := false, ensureFinalizerFails := false,
    createSecretFails := false, tokenReqPersistFails := false,
    statusPersist := .ok, freshNumber := 1, now := 0 }

/-- A secret holder whose token is still empty. -/
def emptySecret : SecretObj :=
  { sname := "test-resource-token-secret", snspace := "default",
    ownerName := "test-resource", data := [("token", "")] }

/-- Environment with an empty-token secret. -/
def envEmptyTok : Env :=
  { envNoSecret with secret := some emptySecret }

/-- Environment with a populated token secret. -/
def envTok3 : Env :=
  { envNoSecret with secret := some tokSecret, freshNumber := 3, now := 1 }

/-- Witness for C7 at concrete inputs, one per branch. -/
theorem token_resolution_branches_witness :
    ((Reconcile giSample envNoSecret).getD noOut).requeue = true ∧
    ((Reconcile giSample envNoSecret).getD noOut).createdSecret =
      some (mkSecretFor giSample) ∧
    ((Reconcile giSample envEmptyTok).getD noOut).requeueAfterSeconds = 60 ∧
    ((Reconcile giSample envTok3).getD noOut).clientToken = some "tkn" ∧
    Event.ensureFinalizer ∈ ((Reconcile giSample envTok3).getD noOut).events := by
  have h1 := (token_resolution_branches giSample envNoSecret rfl rfl rfl).1 rfl
  have h2 := (token_resolution_branches giSample envEmptyTok rfl rfl rfl).2.1
    emptySecret rfl (Or.inr rfl)
  have h3 := (token_resolution_branches giSample envTok3 rfl rfl rfl).2.2
    tokSecret "tkn" ((Reconcile giSample envTok3).getD noOut) rfl rfl
    (by decide) (by rfl)
  refine ⟨?_, ?_, ?_, h3.1, h3.2.2.2⟩
  · rw [h1.1]
    rfl
  · rw [h1.1]
    rfl
  · rw [h2]
    rfl

/-- Helper: an edit request never touches the issue number. -/
theorem applyRequest_number (req : IssueRequest) (i : RemoteIssue) :
    (applyRequest req i).number = i.number := rfl

/-- Helper: applying the same edit request twice equals applying it once. -/
theorem applyRequest_idem (req : IssueRequest) (i : RemoteIssue) :
    applyRequest req (applyRequest req i) = applyRequest req i := by
  obtain ⟨rt, rb, rs⟩ := req
  cases rt <;> cases rb <;> cases rs <;> rfl

/-- Helper: a remote edit at a fixed number is idempotent. -/
theorem editIssues_idem (issues : List RemoteIssue) (n : Int)
    (req : IssueRequest) :
    editIssues (editIssues issues n req) n req = editIssues issues n req := by
  unfold editIssues
  rw [List.map_map]
  apply List.map_congr_left
  intro a _
  by_cases h : (a.getNumber == n) = true
  · have hnum : ((applyRequest req a).getNumber == n) = true := by
      simp only [RemoteIssue.getNumber, applyRequest_number]
      exact h
    simp only [Function.comp_apply, h, if_true, hnum, applyRequest_idem]
  · simp only [Function.comp_apply, Bool.not_eq_true] at h
    simp only [Function.comp_apply, h, Bool.false_eq_true, if_false]

/-- Helper: a sync pass keeps every issue's number present and returns an
    issue that is a member of the resulting remote list. -/
theorem syncStep_wf (issues : List RemoteIssue) (t d : String) (k f : Int)
    (issues1 : List RemoteIssue) (i1 : RemoteIssue)
    (hwf : ∀ x ∈ issues, x.number.isSome = true)
    (h : syncStep issues t d k f = some (issues1, i1)) :
    i1 ∈ issues1 ∧ (∀ x ∈ issues1, x.number.isSome = true) := by
  cases hfind : findIssue issues t k with
  | none =>
    simp only [syncStep, hfind] at h
    injection h with h
    injection h with h1 h2
    subst h1; subst h2
    constructor
    · exact List.mem_append_right _ (by simp)
    · intro x hx
      rcases List.mem_append.mp hx with hx | hx
      · exact hwf x hx
      · simp only [List.mem_singleton] at hx
        subst hx
        rfl
  | some i =>
    simp only [syncStep, hfind] at h
    cases hn : i.number with
    | none =>
      simp only [hn] at h
      exact Option.noConfusion h
    | some n =>
      simp only [hn] at h
      injection h with h
      injection h with h1 h2
      subst h1; subst h2
      have himem : i ∈ issues := List.mem_of_find?_eq_some hfind
      have hgn : (i.getNumber == n) = true := by
        simp [RemoteIssue.getNumber, hn]
      constructor
      · have := List.mem_map_of_mem
          (fun x => if x.getNumber == n then
            applyRequest { rtitle := some t, rbody := some d, rstate := none } x
          else x) himem
        simpa [editIssues, hgn] using this
      · intro x hx
        simp only [editIssues, List.mem_map] at hx
        obtain ⟨y, hy, hyx⟩ := hx
        by_cases hc : (y.getNumber == n) = true
        · rw [← hyx]
          simp only [hc, if_true]
          rw [applyRequest_number]
          exact hwf y hy
        · rw [← hyx]
          simp only [hc, if_false]
          exact hwf y hy

/-- C9: updating is idempotent — the edit request carries both title and body,
    re-applying an identical edit leaves the remote state unchanged — and two
    successive sync passes (the second keyed by the number recorded by the
    first) create no second issue and leave the touched issue's title and body
    equal to the second pass's inputs. -/
theorem update_idempotent_sync_twice :
    (∀ (issues : List RemoteIssue) (n : Int) (title description : String),
      editIssues
          (editIssues issues n
            { rtitle := some title, rbody := some description, rstate := none }) n
          { rtitle := some title, rbody := some description, rstate := none } =
        editIssues issues n
          { rtitle := some title, rbody := some description, rstate := none }) ∧
    (∀ (i : RemoteIssue) (title description : String),
      (applyRequest { rtitle := some title, rbody := some description,
                      rstate := none } i).title = some title ∧
      (applyRequest { rtitle := some title, rbody := some description,
                      rstate := none } i).body = some description) ∧
    (∀ (issues : List RemoteIssue) (t1 d1 t2 d2 : String) (known f1 f2 : Int)
       (issues1 : List RemoteIssue) (i1 : RemoteIssue),
      (∀ x ∈ issues, x.number.isSome = true) →
      syncStep issues t1 d1 known f1 = some (issues1, i1) →
      ∃ issues2 i2,
        syncStep issues1 t2 d2 i1.getNumber f2 = some (issues2, i2) ∧
        issues2.length = issues1.length ∧
        i2.title = some t2 ∧ i2.body = some d2 ∧ i2 ∈ issues2) := by
  refine ⟨?_, ?_, ?_⟩
  · intro issues n title description
    exact editIssues_idem issues n _
  · intro i title description
    exact ⟨rfl, rfl⟩
  · intro issues t1 d1 t2 d2 known f1 f2 issues1 i1 hwf h1
    obtain ⟨hmem, hwf1⟩ := syncStep_wf issues t1 d1 known f1 issues1 i1 hwf h1
    have hex : ∃ x ∈ issues1,
        (x.getTitle == t2 || x.getNumber == i1.getNumber) = true :=
      ⟨i1, hmem, by simp⟩
    have hfs : (findIssue issues1 t2 i1.getNumber).isSome :=
      List.find?_isSome.mpr hex
    obtain ⟨j, hj⟩ := Option.isSome_iff_exists.mp hfs
    have hjmem : j ∈ issues1 := List.mem_of_find?_eq_some hj
    obtain ⟨m, hm⟩ := Option.isSome_iff_exists.mp (hwf1 j hjmem)
    have hgj : (j.getNumber == m) = true := by
      simp [RemoteIssue.getNumber, hm]
    refine ⟨editIssues issues1 m
        { rtitle := some t2, rbody := some d2, rstate := none },
      applyRequest { rtitle := some t2, rbody := some d2, rstate := none } j,
      ?_, ?_, rfl, rfl, ?_⟩
    · simp only [syncStep, hj, hm]
    · simp [editIssues]
    · have := List.mem_map_of_mem
        (fun x => if x.getNumber == m then
          applyRequest { rtitle := some t2, rbody := some d2, rstate := none } x
        else x) hjmem
      simpa [editIssues, hgj] using this

/-- Witness for C9 part three: an empty remote, a create pass, then a second
    pass keyed by the created number updates in place. -/
theorem update_idempotent_sync_twice_witness :
    (syncStep [createdIssue "A" "B" 5] "C" "D" 5 6).isSome = true := by
  have h3 := update_idempotent_sync_twice.2.2 [] "A" "B" "C" "D" 0 5 6
    [createdIssue "A" "B" 5] (createdIssue "A" "B" 5)
    (by intro x hx; cases hx) (by rfl)
  obtain ⟨issues2, i2, hstep, -, -, -, -⟩ := h3
  rw [show (createdIssue "A" "B" 5).getNumber = (5 : Int) from rfl] at hstep
  rw [hstep]
  rfl

/-- Helper: the close step only ever emits the listing call and a close call. -/
theorem closeStep_events (env : Env) (found : Option RemoteIssue)
    (evs : List Event) (errOpt : Option String)
    (h : closeStep env found = some (evs, errOpt)) :
    ∀ e ∈ evs, e = Event.listIssues ∨ ∃ n, e = Event.closeIssue n := by
  cases found with
  | none =>
    simp only [closeStep] at h
    injection h with h
    injection h with h1 h2
    subst h1
    intro e he
    simp only [List.mem_singleton] at he
    exact Or.inl he
  | some issue =>
    cases hst : issue.state with
    | none => simp [closeStep, hst] at h
    | some st =>
      simp only [closeStep, hst] at h
      cases hopen : st == "open" with
      | false =>
        simp only [hopen, Bool.false_eq_true, if_false] at h
        injection h with h
        injection h with h1 h2
        subst h1
        intro e he
        simp only [List.mem_singleton] at he
        exact Or.inl he
      | true =>
        simp only [hopen, if_true] at h
        cases hcf : env.closeFails <;>
          simp only [hcf, Bool.false_eq_true, if_false, if_true] at h <;>
          · injection h with h
            injection h with h1 h2
            subst h1
            intro e he
            rcases List.mem_cons.mp he with he | he
            · exact Or.inl he
            · simp only [List.mem_singleton] at he
              exact Or.inr ⟨issue.getNumber, he⟩

/-- Helper: a close step that succeeds on a found OPEN issue had a working
    close call and emitted exactly the listing and that close. -/
theorem closeStep_success (env : Env) (found : Option RemoteIssue)
    (evs : List Event) (h : closeStep env found = some (evs, none)) :
    ∀ i, found = some i → i.state = some "open" →
      env.closeFails = false ∧
      evs = [Event.listIssues, Event.closeIssue i.getNumber] := by
  intro i hfound hopen
  subst hfound
  simp only [closeStep, hopen] at h
  cases hcf : env.closeFails with
  | true =>
    simp only [hcf, if_true] at h
    injection h with h
    injection h with h1 h2
    exact Option.noConfusion h2
  | false =>
    simp only [hcf, Bool.false_eq_true, if_false] at h
    injection h with h
    injection h with h1 h2
    exact ⟨rfl, h1.symm⟩

/-- Helper: the teardown routine only ever emits listing, close and CR-delete
    calls — never a finalizer removal nor a create or update. -/
theorem statusDelete_events (gi : GithubIssue) (env : Env) (evs : List Event)
    (errOpt : Option String) (h : statusDelete gi env = some (evs, errOpt)) :
    ∀ e ∈ evs,
      e = Event.listIssues ∨ (∃ n, e = Event.closeIssue n) ∨ e = Event.crDelete := by
  cases hp : ParseRepoUrl gi.spec.repo with
  | error e =>
    simp only [statusDelete, hp] at h
    injection h with h
    injection h with h1 h2
    subst h1
    intro e he
    cases he
  | ok pr =>
    cases hl : env.listResult with
    | error le =>
      simp only [statusDelete, hp, CheckIssueExists, hl] at h
      injection h with h
      injection h with h1 h2
      subst h1
      intro e he
      simp only [List.mem_singleton] at he
      exact Or.inl he
    | ok issues =>
      simp only [statusDelete, hp, CheckIssueExists, hl] at h
      cases hcs : closeStep env (findIssue issues gi.spec.title gi.status.issueNumber) with
      | none =>
        rw [hcs] at h
        exact Option.noConfusion h
      | some p =>
        obtain ⟨evs0, errOpt0⟩ := p
        have hevs0 := closeStep_events env _ evs0 errOpt0 hcs
        rw [hcs] at h
        cases errOpt0 with
        | some e0 =>
          injection h with h
          injection h with h1 h2
          subst h1
          intro e he
          rcases hevs0 e he with he1 | he1
          · exact Or.inl he1
          · exact Or.inr (Or.inl he1)
        | none =>
          cases hdf : env.crDeleteFails <;>
            simp only [hdf, Bool.false_eq_true, if_false, if_true] at h <;>
            · injection h with h
              injection h with h1 h2
              subst h1
              intro e he
              rcases List.mem_append.mp he with he1 | he1
              · rcases hevs0 e he1 with he2 | he2
                · exact Or.inl he2
                · exact Or.inr (Or.inl he2)
              · simp only [List.mem_singleton] at he1
                exact Or.inr (Or.inr he1)

/-- Helper: a teardown that surfaced no error had a working parse, listing and
    CR delete, and — when the scan found an OPEN issue — a successful close,
    with the event trace fully determined. -/
theorem statusDelete_success (gi : GithubIssue) (env : Env) (evs : List Event)
    (h : statusDelete gi env = some (evs, none)) :
    (ParseRepoUrl gi.spec.repo).isOk = true ∧
    (∃ issues, env.listResult = Except.ok issues) ∧
    env.crDeleteFails = false ∧
    (∀ issues i, env.listResult = Except.ok issues →
      findIssue issues gi.spec.title gi.status.issueNumber = some i →
      i.state = some "open" →
      env.closeFails = false ∧
      evs = [Event.listIssues, Event.closeIssue i.getNumber, Event.crDelete]) := by
  cases hp : ParseRepoUrl gi.spec.repo with
  | error e =>
    simp only [statusDelete, hp] at h
    injection h with h
    injection h with h1 h2
    exact Option.noConfusion h2
  | ok pr =>
    cases hl : env.listResult with
    | error le =>
      simp only [statusDelete, hp, CheckIssueExists, hl] at h
      injection h with h
      injection h with h1 h2
      exact Option.noConfusion h2
    | ok issues =>
      simp only [statusDelete, hp, CheckIssueExists, hl] at h
      cases hcs : closeStep env (findIssue issues gi.spec.title gi.status.issueNumber) with
      | none =>
        rw [hcs] at h
        exact Option.noConfusion h
      | some p =>
        obtain ⟨evs0, errOpt0⟩ := p
        rw [hcs] at h
        cases errOpt0 with
        | some e0 =>
          injection h with h
          injection h with h1 h2
          exact Option.noConfusion h2
        | none =>
          cases hdf : env.crDeleteFails with
          | true =>
            simp only [hdf, if_true] at h
            injection h with h
            injection h with h1 h2
            exact Option.noConfusion h2
          | false =>
            simp only [hdf, Bool.false_eq_true, if_false] at h
            injection h with h
            injection h with h1 h2
            subst h1
            refine ⟨by simp [hp, Except.isOk, Except.toBool], ⟨issues, rfl⟩, rfl, ?_⟩
            intro issues' i hlist' hfind' hopen
            injection hlist' with hlist'
            subst hlist'
            have := closeStep_success env _ evs0 hcs i hfind' hopen
            exact ⟨this.1, by rw [this.2]; rfl⟩

/-- C1 (amended): with deletionIntent set, if the title-or-number scan finds
    an OPEN issue then erasure happens strictly after a successful close: an
    erased outcome implies the close succeeded and the trace is exactly
    listing, close, CR delete, finalizer removal, in that order. If the parse,
    listing, close (of a found open issue) or CR-delete step fails, the error
    is surfaced, the finalizer is not removed and nothing is erased. (The
    un-amended universal guarantee fails when a title collision makes the scan
    find a different, closed issue — see the counterexample.) -/
theorem teardown_ordering_amended (gi : GithubIssue) (env : Env)
    (out : ReconcileOut)
    (hdel : gi.deletionTimestamp.isSome = true)
    (hrec : Reconcile gi env = some out) :
    (∀ issues i, env.listResult = Except.ok issues →
      findIssue issues gi.spec.title gi.status.issueNumber = some i →
      i.state = some "open" →
      out.erased = true →
      env.closeFails = false ∧
      out.events = [Event.listIssues, Event.closeIssue i.getNumber,
                    Event.crDelete, Event.removeFinalizer]) ∧
    (((ParseRepoUrl gi.spec.repo).isOk = false ∨
      (∃ e, env.listResult = Except.error e) ∨
      env.crDeleteFails = true ∨
      (env.closeFails = true ∧ ∃ issues i,
        env.listResult = Except.ok issues ∧
        findIssue issues gi.spec.title gi.status.issueNumber = some i ∧
        i.state = some "open")) →
      out.error.isSome = true ∧ Event.removeFinalizer ∉ out.events ∧
      out.erased = false) := by
  simp only [Reconcile, hdel, if_true] at hrec
  cases hsd : statusDelete gi env with
  | none =>
    rw [hsd] at hrec
    exact Option.noConfusion hrec
  | some p =>
    obtain ⟨evs, errOpt⟩ := p
    rw [hsd] at hrec
    cases errOpt with
    | some e =>
      injection hrec with hrec
      constructor
      · intro issues i hlist hfind hopen hera
        rw [← hrec] at hera
        exact absurd hera (by simp)
      · intro hbad
        rw [← hrec]
        refine ⟨rfl, ?_, rfl⟩
        intro hmem
        rcases statusDelete_events gi env evs (some e) hsd Event.removeFinalizer hmem
          with h1 | h1 | h1
        · exact Event.noConfusion h1
        · obtain ⟨n, h1⟩ := h1
          exact Event.noConfusion h1
        · exact Event.noConfusion h1
    | none =>
      have hsucc := statusDelete_success gi env evs hsd
      cases hrf : env.removeFinalizerFails with
      | true =>
        simp only [hrf, if_true] at hrec
        injection hrec with hrec
        constructor
        · intro issues i hlist hfind hopen hera
          rw [← hrec] at hera
          exact absurd hera (by simp)
        · intro hbad
          rcases hbad with h1 | h1 | h1 | h1
          · rw [hsucc.1] at h1
            exact Bool.noConfusion h1
          · obtain ⟨e, h1⟩ := h1
            obtain ⟨issues, h2⟩ := hsucc.2.1
            rw [h1] at h2
            exact Except.noConfusion h2
          · rw [hsucc.2.2.1] at h1
            exact Bool.noConfusion h1
          · obtain ⟨hcf, issues, i, hlist, hfind, hopen⟩ := h1
            have := (hsucc.2.2.2 issues i hlist hfind hopen).1
            rw [this] at hcf
            exact Bool.noConfusion hcf
      | false =>
        simp only [hrf, Bool.false_eq_true, if_false] at hrec
        injection hrec with hrec
        constructor
        · intro issues i hlist hfind hopen hera
          have hclose := hsucc.2.2.2 issues i hlist hfind hopen
          refine ⟨hclose.1, ?_⟩
          rw [← hrec]
          simp only []
          rw [hclose.2]
          rfl
        · intro hbad
          rcases hbad with h1 | h1 | h1 | h1
          · rw [hsucc.1] at h1
            exact Bool.noConfusion h1
          · obtain ⟨e, h1⟩ := h1
            obtain ⟨issues, h2⟩ := hsucc.2.1
            rw [h1] at h2
            exact Except.noConfusion h2
          · rw [hsucc.2.2.1] at h1
            exact Bool.noConfusion h1
          · obtain ⟨hcf, issues, i, hlist, hfind, hopen⟩ := h1
            have := (hsucc.2.2.2 issues i hlist hfind hopen).1
            rw [this] at hcf
            exact Bool.noConfusion hcf

/-- A closed issue #1 whose title collides with the record's title. -/
def collideClosed1 : RemoteIssue :=
  { number := some 1, title := some "T", body := none, state := some "closed",
    pullRequestLinks := false }

/-- The record's own remote issue #5, still open. -/
def knownOpen5 : RemoteIssue :=
  { number := some 5, title := some "T", body := none, state := some "open",
    pullRequestLinks := false }

/-- A record marked for deletion that knows its issue number 5. -/
def giDel5 : GithubIssue :=
  { name := "r", nspace := "default", deletionTimestamp := some 1,
    finalizers := ["issue.core.github.io/finalizer"],
    spec := { repo := "https://github.com/a/b", title := "T", description := "" },
    status := { conditions := [], issueNumber := 5, lastUpdated := none,
                tokenRequired := false } }

/-- Environment listing the colliding closed issue before the known open one. -/
def envCollide : Env :=
  { secret := none, listResult := .ok [collideClosed1, knownOpen5],
    createFails := false, updateFails := false, closeFails := false,
    crDeleteFails := false, removeFinalizerFails := false,
    ensureFinalizerFails := false, createSecretFails := false,
    tokenReqPersistFails := false, statusPersist := .ok, freshNumber := 0,
    now := 0 }

/-- C1 counterexample: deletionIntent is set and the known remote issue #5 is
    open in the listing, yet the teardown finds the colliding closed issue #1
    first, never calls close, and erases the record — the known open issue
    survives, so "never erased while the remote issue remains open" is false. -/
theorem teardown_title_collision_erases_while_open :
    giDel5.status.issueNumber = 5 ∧
    knownOpen5.number = some 5 ∧ knownOpen5.state = some "open" ∧
    knownOpen5 ∈ [collideClosed1, knownOpen5] ∧
    (Reconcile giDel5 envCollide).map
        (fun o => (o.erased, o.error.isSome, o.events)) =
      some (true, false,
            [Event.listIssues, Event.crDelete, Event.removeFinalizer]) := by
  exact ⟨rfl, rfl, rfl, by decide, rfl⟩

/-- Environment listing only the known open issue #5, everything healthy. -/
def envOpen5 : Env :=
  { envCollide with listResult := .ok [knownOpen5] }

/-- Witness for the amended C1 theorem: without the collision the trace is
    exactly list, close #5, CR delete, finalizer removal. -/
theorem teardown_ordering_amended_witness :
    ((Reconcile giDel5 envOpen5).getD noOut).events =
      [Event.listIssues, Event.closeIssue 5, Event.crDelete,
       Event.removeFinalizer] ∧
    ((Reconcile giDel5 envOpen5).getD noOut).erased = true := by
  have h := (teardown_ordering_amended giDel5 envOpen5
      ((Reconcile giDel5 envOpen5).getD noOut) (by rfl) (by rfl)).1
    [knownOpen5] knownOpen5 rfl (by rfl) rfl (by rfl)
  exact ⟨h.2, by rfl⟩

/-- C2 counterexample: a teardown pass closes the remote issue with NO token
    read anywhere in the pass (the deletion branch precedes the secret fetch),
    so "every remote-issue mutation is preceded in that same pass by a
    successful read of a non-empty token" is false. -/
theorem close_without_token_read :
    (Reconcile giDel5 envOpen5).map
        (fun o => (gatedAux isRemoteMutation false o.events,
                   o.events.any (fun e => isGoodTokenRead e),
                   o.events.any (fun e => e == Event.closeIssue 5))) =
      some (false, false, true) := by
  rfl

/-- Helper: once a good token read has been seen, the gate is satisfied. -/
theorem gatedAux_of_seen (p : Event → Bool) (evs : List Event) :
    gatedAux p true evs = true := by
  induction evs with
  | nil => rfl
  | cons e es ih => simp [gatedAux, ih]

/-- Helper: a trace containing no mutating calls satisfies the gate. -/
theorem gatedAux_of_no_mut (p : Event → Bool) (evs : List Event)
    (h : ∀ e ∈ evs, p e = false) : ∀ seen, gatedAux p seen evs = true := by
  induction evs with
  | nil => intro seen; rfl
  | cons e es ih =>
    intro seen
    have he := h e (by simp)
    simp only [gatedAux, he, Bool.not_false, Bool.true_or, Bool.true_and]
    exact ih (fun x hx => h x (List.mem_cons_of_mem e hx)) _

/-- C2 (amended): the sync-path mutations — CreateIssue and UpdateIssue — are
    always preceded, in the same pass, by a successful read of a non-empty
    token; the teardown CloseIssue is NOT so gated (see the counterexample),
    as it runs before token resolution using the client of an earlier pass. -/
theorem sync_mutations_token_gated (gi : GithubIssue) (env : Env)
    (out : ReconcileOut) (hrec : Reconcile gi env = some out) :
    gatedAux isSyncMutation false out.events = true := by
  cases hdel : gi.deletionTimestamp.isSome with
  | true =>
    simp only [Reconcile, hdel, if_true] at hrec
    cases hsd : statusDelete gi env with
    | none =>
      rw [hsd] at hrec
      exact Option.noConfusion hrec
    | some p =>
      obtain ⟨evs, errOpt⟩ := p
      rw [hsd] at hrec
      have hcls := statusDelete_events gi env evs errOpt hsd
      have hnomut : ∀ e ∈ evs, isSyncMutation e = false := by
        intro e he
        rcases hcls e he with h1 | h1 | h1
        · subst h1; rfl
        · obtain ⟨n, h1⟩ := h1; subst h1; rfl
        · subst h1; rfl
      cases errOpt with
      | some e =>
        injection hrec with hrec
        rw [← hrec]
        exact gatedAux_of_no_mut _ _ hnomut _
      | none =>
        have hnomut2 : ∀ e ∈ evs ++ [Event.removeFinalizer],
            isSyncMutation e = false := by
          intro e he
          rcases List.mem_append.mp he with h1 | h1
          · exact hnomut e h1
          · simp only [List.mem_singleton] at h1
            subst h1
            rfl
        cases hrf : env.removeFinalizerFails <;>
          simp only [hrf, Bool.false_eq_true, if_false, if_true] at hrec <;>
          · injection hrec with hrec
            rw [← hrec]
            exact gatedAux_of_no_mut _ _ hnomut2 _
  | false =>
    have hdel' : gi.deletionTimestamp = none := by
      cases h : gi.deletionTimestamp with
      | none => rfl
      | some t => rw [h] at hdel; exact Bool.noConfusion hdel
    cases hsec : env.secret with
    | none =>
      cases hcs : env.createSecretFails <;>
        cases htr : env.tokenReqPersistFails <;>
        simp only [Reconcile, hdel', Option.isSome_none, Bool.false_eq_true,
          if_false, hsec, hcs, htr, if_true] at hrec <;>
        · injection hrec with hrec
          rw [← hrec]
          rfl
    | some s =>
      cases htk : lookupToken s with
      | none =>
        cases htr : env.tokenReqPersistFails <;>
          simp only [Reconcile, hdel', Option.isSome_none, Bool.false_eq_true,
            if_false, hsec, htk, htr, if_true] at hrec <;>
          · injection hrec with hrec
            rw [← hrec]
            rfl
      | some tok =>
        cases hne : tok == "" with
        | true =>
          cases htr : env.tokenReqPersistFails <;>
            simp only [Reconcile, hdel', Option.isSome_none, Bool.false_eq_true,
              if_false, hsec, htk, hne, htr, if_true] at hrec <;>
            · injection hrec with hrec
              rw [← hrec]
              rfl
        | false =>
          cases htr : env.tokenReqPersistFails with
          | true =>
            simp only [Reconcile, hdel', Option.isSome_none, Bool.false_eq_true,
              if_false, hsec, htk, hne, htr, if_true] at hrec
            injection hrec with hrec
            rw [← hrec]
            simp [gatedAux, isSyncMutation, isGoodTokenRead, hne]
          | false =>
            simp only [Reconcile, hdel', Option.isSome_none, Bool.false_eq_true,
              if_false, hsec, htk, hne, htr, if_true] at hrec
            cases hsp : syncPhase (UpdateTokenRequired gi false) env with
            | none =>
              rw [hsp] at hrec
              exact Option.noConfusion hrec
            | some q =>
              obtain ⟨evs, dir, err, rec⟩ := q
              rw [hsp] at hrec
              injection hrec with hrec
              rw [← hrec]
              simp only [gatedAux, isSyncMutation, isGoodTokenRead, hne,
                Bool.not_false, Bool.or_true, Bool.false_or, Bool.not_true,
                Bool.true_and]
              exact gatedAux_of_seen _ _

/-- Witness for the amended C2 theorem: a pass that creates an issue satisfies
    the gate (the non-empty token read comes first in its trace). -/
theorem sync_mutations_token_gated_witness :
    gatedAux isSyncMutation false
        ((Reconcile giSample envTok3).getD noOut).events = true ∧
    ((Reconcile giSample envTok3).getD noOut).events.any
        (fun e => isSyncMutation e) = true := by
  refine ⟨?_, by rfl⟩
  exact sync_mutations_token_gated giSample envTok3
    ((Reconcile giSample envTok3).getD noOut) (by rfl)
